import Mathlib

/-!
Verification of the openclaw-foundry validation pipeline, sandbox runner,
extension writer and learning engine
(source: `src/server/web/src/pages/Whitepaper.tsx`).

The TypeScript is shallowly embedded:
* strings are `String` / `List Char`; all text scanning is implemented by
  structurally recursive Lean functions mirroring the JavaScript regexes
  (case-insensitive regexes lowercase the haystack first, as `/i` does);
* the `new Function(code)` syntax probe is an oracle parameter
  (`parseErr : Option String`), since embedding a JavaScript parser is out
  of scope; claims about particular texts instantiate it with `none` when
  the text is syntactically valid JavaScript;
* the sandbox child process is modelled by the event that settles the
  promise in `testInSandbox` (close / spawn error / timeout / setup
  exception), together with a ghost flag recording whether the handler for
  that event removed the throwaway working directory before producing the
  result;
* the `CodeWriter` manifest and the `LearningEngine` learnings array are
  explicit state, with ghost fields for file writes.
-/

set_option maxRecDepth 1000000

/-! ## Character and list utilities -/

/-- The single-quote character (codepoint 39). -/
def squote : Char := Char.ofNat 39

/-- ASCII whitespace as matched by the JavaScript `\s` class (the non-ASCII
whitespace code points that `\s` also matches never occur in the texts of
these claims). -/
def isWs (c : Char) : Bool :=
  c = ' ' || c = '\t' || c = '\n' || c = '\r' || c = '\x0b' || c = '\x0c'

/-- Line terminators excluded by the JavaScript `.` class. -/
def isLineBreak (c : Char) : Bool := c = '\n' || c = '\r'

/-- JavaScript `\w`: ASCII letters, digits, underscore. -/
def isWordChar (c : Char) : Bool := c.isAlphanum || c = '_'

/-- Drop a maximal run of whitespace (greedy `\s*`). -/
def dropWs : List Char → List Char
  | [] => []
  | c :: cs => if isWs c then dropWs cs else c :: cs

/-- Strip a literal off the front of a list; `none` when it is not a prefix. -/
def stripLit : List Char → List Char → Option (List Char)
  | [], l => some l
  | _ :: _, [] => none
  | p :: ps, c :: cs => if c = p then stripLit ps cs else none

/-- Search every position of the text (with the preceding character, for
word-boundary tests); mirrors an unanchored regex search. -/
def scanWithPrev (p : Option Char → List Char → Bool) : Option Char → List Char → Bool
  | prev, [] => p prev []
  | prev, c :: cs => p prev (c :: cs) || scanWithPrev p (some c) cs

def regexSearch (p : Option Char → List Char → Bool) (s : List Char) : Bool :=
  scanWithPrev p none s

/-- Lowercased character list of a string (how a `/i` regex sees it). -/
def lc (s : String) : List Char := s.data.map Char.toLower

/-- Substring occurrence test on character lists. -/
def containsSub (needle : List Char) : List Char → Bool
  | [] => needle.isEmpty
  | c :: cs => (stripLit needle (c :: cs)).isSome || containsSub needle cs

/-- Case-sensitive substring test (JavaScript `String.includes` / a literal
regex without `/i`). -/
def containsStr (hay needle : String) : Bool := containsSub needle.data hay.data

/-- Case-insensitive substring test (a literal alternative of a `/i` regex;
`needle` is written lowercase). -/
def containsCI (hay needle : String) : Bool := containsSub needle.data (lc hay)

/-! ## Regex fragments used by the scanner -/

/-- `['"]` -/
def isQuoteChar (c : Char) : Bool := c = '"' || c = squote

/-- Position test for `require\s*\(\s*['"]child_process['"]\s*\)` (on the
lowercased text). -/
def childProcAt (l : List Char) : Bool :=
  match stripLit "require".data l with
  | none => false
  | some l1 =>
    match dropWs l1 with
    | '(' :: l2 =>
      match dropWs l2 with
      | c3 :: l3 =>
        if isQuoteChar c3 then
          match stripLit "child_process".data l3 with
          | none => false
          | some l4 =>
            match l4 with
            | c5 :: l5 =>
              if isQuoteChar c5 then
                match dropWs l5 with
                | ')' :: _ => true
                | _ => false
              else false
            | [] => false
        else false
      | [] => false
    | _ => false

/-- Position test for `\bWORD\s*\(` at a position with the given preceding
character. -/
def wordParenAt (w : List Char) (prev : Option Char) (l : List Char) : Bool :=
  (match prev with
   | none => true
   | some c => !isWordChar c) &&
  (match stripLit w l with
   | none => false
   | some l1 =>
     match dropWs l1 with
     | '(' :: _ => true
     | _ => false)

/-- Position test for `new\s+function\s*\(` (lowercased text). -/
def newFunctionAt (l : List Char) : Bool :=
  match stripLit "new".data l with
  | none => false
  | some l1 =>
    match l1 with
    | c :: cs =>
      isWs c &&
      (match stripLit "function".data (dropWs cs) with
       | none => false
       | some l2 =>
         match dropWs l2 with
         | '(' :: _ => true
         | _ => false)
    | [] => false

/-- Position test for `ignore\s+previous\s+instructions` (lowercased text). -/
def ignorePrevAt (l : List Char) : Bool :=
  match stripLit "ignore".data l with
  | some (c :: cs) =>
    isWs c &&
    (match stripLit "previous".data (dropWs cs) with
     | some (c2 :: cs2) => isWs c2 && (stripLit "instructions".data (dropWs cs2)).isSome
     | _ => false)
  | _ => false

/-- Position test for `system:\s*you` (lowercased text). -/
def systemYouAt (l : List Char) : Bool :=
  match stripLit "system:".data l with
  | some l1 => (stripLit "you".data (dropWs l1)).isSome
  | none => false

/-- Position test for `while\s*\(\s*true\s*\)` (case-sensitive). -/
def whileTrueAt (l : List Char) : Bool :=
  match stripLit "while".data l with
  | none => false
  | some l1 =>
    match dropWs l1 with
    | '(' :: l2 =>
      match stripLit "true".data (dropWs l2) with
      | none => false
      | some l3 =>
        match dropWs l3 with
        | ')' :: _ => true
        | _ => false
    | _ => false

/-- Hex digit after lowercasing. -/
def isHexDigitLc (c : Char) : Bool := c.isDigit || (('a' ≤ c) && (c ≤ 'f'))

/-- Position test for `\\x[0-9a-f]{2}` (lowercased text). -/
def hexEscapeAt (l : List Char) : Bool :=
  match l with
  | '\\' :: 'x' :: a :: b :: _ => isHexDigitLc a && isHexDigitLc b
  | _ => false

/-- Position test for `\\u[0-9a-f]{4}` (lowercased text). -/
def uniEscapeAt (l : List Char) : Bool :=
  match l with
  | '\\' :: 'u' :: a :: b :: c :: d :: _ =>
    isHexDigitLc a && isHexDigitLc b && isHexDigitLc c && isHexDigitLc d
  | _ => false

/-! ## Security scanner (`CodeValidator.staticSecurityScan`) -/

structure ScanRule where
  test : String → Bool
  reason : String

/-- The ordered BLOCK rules of `staticSecurityScan`. -/
def blockPatterns : List ScanRule := [
  ⟨fun s => containsCI s "id_rsa" || containsCI s "id_ed25519" || containsCI s "~/.ssh/",
    "SSH key reference"⟩,
  ⟨fun s => containsCI s "aws_secret" || containsCI s "aws_access" || containsCI s "~/.aws/",
    "AWS credentials"⟩,
  ⟨fun s => containsCI s "~/.gnupg/", "GPG key reference"⟩,
  ⟨fun s => regexSearch (fun _ l => childProcAt l) (lc s), "Child process import"⟩,
  ⟨fun s => regexSearch (wordParenAt "exec".data) (lc s)
         || regexSearch (wordParenAt "spawn".data) (lc s)
         || regexSearch (wordParenAt "execsync".data) (lc s), "Shell execution"⟩,
  ⟨fun s => regexSearch (wordParenAt "eval".data) (lc s), "eval() usage"⟩,
  ⟨fun s => regexSearch (fun _ l => newFunctionAt l) (lc s), "Dynamic function creation"⟩,
  ⟨fun s => containsCI s ".ngrok." || containsCI s ".burpcollaborator."
         || containsCI s ".oastify." || containsCI s "webhook.site"
         || containsCI s "requestbin", "Exfiltration domain"⟩,
  ⟨fun s => regexSearch (fun _ l => ignorePrevAt l) (lc s)
         || regexSearch (fun _ l => systemYouAt l) (lc s), "Prompt injection"⟩,
  ⟨fun s => containsCI s "coinhive" || containsCI s "cryptominer", "Crypto mining"⟩,
  ⟨fun s => containsCI s "crontab" || containsCI s "systemctl" || containsCI s "launchctl",
    "System persistence"⟩,
  ⟨fun s => containsCI s "<script" || containsCI s "<!--", "Script injection"⟩
]

/-- The ordered FLAG rules of `staticSecurityScan`. -/
def flagPatterns : List ScanRule := [
  ⟨fun s => containsCI s "process.env" || containsCI s ".env", "Environment variable access"⟩,
  ⟨fun s => containsCI s "readfile" || containsCI s "writefile" || containsCI s "fs.",
    "Filesystem access"⟩,
  ⟨fun s => containsCI s "atob" || containsCI s "btoa" || containsCI s "buffer.from",
    "Base64 encoding"⟩,
  ⟨fun s => regexSearch (fun _ l => hexEscapeAt l) (lc s)
         || regexSearch (fun _ l => uniEscapeAt l) (lc s), "Hex/unicode escapes"⟩
]

structure ScanOut where
  blocked : List String
  flagged : List String
deriving DecidableEq

/-- `CodeValidator.staticSecurityScan`: collect the reasons of every
matching rule, blocked and flagged independently. -/
def staticSecurityScan (code : String) : ScanOut :=
  { blocked := (blockPatterns.filter (fun r => r.test code)).map (fun r => r.reason),
    flagged := (flagPatterns.filter (fun r => r.test code)).map (fun r => r.reason) }

/-! ## Validation pipeline (`CodeValidator.validate`) -/

inductive CodeType
  | extension | tool | hook
deriving DecidableEq

structure ValidationResult where
  valid : Bool
  errors : List String
  warnings : List String
  securityFlags : List String
deriving DecidableEq

/-- The `errors` array accumulated by `CodeValidator.validate`: the syntax
probe message, then the `BLOCKED:`-prefixed block-rule reasons, then the
extension structural check on `export default`. -/
def validateErrors (parseErr : Option String) (code : String) (ty : CodeType) : List String :=
  (match parseErr with
   | some m => ["Syntax error: " ++ m]
   | none => [])
  ++ (staticSecurityScan code).blocked.map (fun p => "BLOCKED: " ++ p)
  ++ (if ty = CodeType.extension then
        (if containsStr code "export default" then []
         else ["Extension missing \x27export default\x27"])
      else [])

/-- The `warnings` array accumulated by `CodeValidator.validate`: the
extension structural check on `api.registerTool`, then the infinite-loop
heuristic. -/
def validateWarnings (code : String) (ty : CodeType) : List String :=
  (if ty = CodeType.extension then
     (if containsStr code "api.registerTool" then []
      else ["Extension doesn\x27t register any tools"])
   else [])
  ++ (if regexSearch (fun _ l => whileTrueAt l) code.data
         && !(containsStr code "break" || containsStr code "return") then
        ["Potential infinite loop detected"]
      else [])

/-- `CodeValidator.validate`.  `parseErr` is the outcome of the
`new Function(code)` syntax probe (`none` when the text parses, otherwise
the thrown message). -/
def validate (parseErr : Option String) (code : String) (ty : CodeType) : ValidationResult :=
  { valid := (validateErrors parseErr code ty).isEmpty
    errors := validateErrors parseErr code ty
    warnings := validateWarnings code ty
    securityFlags := (staticSecurityScan code).flagged }

/-! ## Sandbox runner (`CodeValidator.testInSandbox`)

`testInSandbox` materialises the candidate into a throwaway directory,
spawns `npx tsx runner.mjs`, and settles its promise from exactly one of
four handlers: the child's `close` event, the child's `error` (spawn
failure) event, the 15-second timeout fallback, or the `catch` around the
setup writes.  The model keeps the event that settles the promise and a
ghost flag recording whether that handler removed the working directory
(`fs.rmSync`) before producing the result. -/

inductive SandboxEvent
  | close (exitCode : Option Int) (stdout stderr : String)
  | spawnError (msg : String)
  | timeout
  | setupException (msg : String)
deriving DecidableEq

structure SandboxOutcome where
  success : Bool
  error : Option String
  cleanedBeforeResult : Bool
deriving DecidableEq

/-- JavaScript template interpolation of the `close` code (`null` when the
child was killed by a signal). -/
def exitCodeText : Option Int → String
  | some n => toString n
  | none => "null"

/-- The capture of `/SANDBOX_ERROR:\s*(.+)/` after the marker: greedy `\s*`
with backtracking, then a maximal run of non-line-terminator characters. -/
def captureTail : List Char → Option (List Char)
  | [] => none
  | c :: cs =>
    if isWs c then
      match captureTail cs with
      | some m => some m
      | none =>
        if isLineBreak c then none
        else some ((c :: cs).takeWhile (fun x => !isLineBreak x))
    else some ((c :: cs).takeWhile (fun x => !isLineBreak x))

/-- The remainder of the text after the first occurrence of `pat`. -/
def afterFirst (pat : List Char) : List Char → Option (List Char)
  | [] => none
  | c :: cs =>
    match stripLit pat (c :: cs) with
    | some r => some r
    | none => afterFirst pat cs

/-- `stderr.match(/SANDBOX_ERROR:\s*(.+)/)?.[1]`. -/
def sandboxErrMatch (stderr : String) : Option String :=
  match afterFirst "SANDBOX_ERROR:".data stderr.data with
  | some rest => (captureTail rest).map (fun l => ⟨l⟩)
  | none => none

/-- `errorMatch?.[1] || stderr.slice(0, 500) || Exit code ...` (the `||`
chain falls through on empty strings). -/
def closeError (exitCode : Option Int) (stderr : String) : String :=
  match sandboxErrMatch stderr with
  | some m => m
  | none =>
    if (⟨stderr.data.take 500⟩ : String) = ""
    then "Exit code " ++ exitCodeText exitCode
    else ⟨stderr.data.take 500⟩

/-- The result of `testInSandbox` as a function of the event that settles
its promise, with the handler structure of the source:
`close` and `error` remove the working directory and then resolve, the
`catch` removes it and returns, while the timeout fallback kills the child
and resolves without removing anything. -/
def testInSandboxOutcome : SandboxEvent → SandboxOutcome
  | .close exitCode stdout stderr =>
    if (exitCode == some 0) && containsStr stdout "SANDBOX_OK" then
      { success := true, error := none, cleanedBeforeResult := true }
    else
      { success := false, error := some (closeError exitCode stderr), cleanedBeforeResult := true }
  | .spawnError msg => { success := false, error := some msg, cleanedBeforeResult := true }
  | .timeout => { success := false, error := some "Sandbox timeout (15s)", cleanedBeforeResult := false }
  | .setupException msg => { success := false, error := some msg, cleanedBeforeResult := true }

/-! ## Helper lemmas -/

theorem isEmpty_false_of_mem {α : Type} {a : α} {l : List α} (h : a ∈ l) :
    l.isEmpty = false := by
  cases l with
  | nil => cases h
  | cons x xs => rfl

theorem reason_mem_blocked {code : String} {r : ScanRule} (hr : r ∈ blockPatterns)
    (ht : r.test code = true) : r.reason ∈ (staticSecurityScan code).blocked :=
  List.mem_map_of_mem _ (List.mem_filter.mpr ⟨hr, ht⟩)

theorem blocked_mem_errors {parseErr : Option String} {code : String} {ty : CodeType}
    {r : ScanRule} (hr : r ∈ blockPatterns) (ht : r.test code = true) :
    ("BLOCKED: " ++ r.reason) ∈ validateErrors parseErr code ty := by
  have h1 : ("BLOCKED: " ++ r.reason) ∈
      (staticSecurityScan code).blocked.map (fun p => "BLOCKED: " ++ p) :=
    List.mem_map_of_mem _ (reason_mem_blocked hr ht)
  unfold validateErrors
  exact List.mem_append.mpr (Or.inl (List.mem_append.mpr (Or.inr h1)))

/-! ## C1 -/

/-- C1: any candidate text matched by a block rule of the security scanner is
rejected by `validate` — the verdict has `valid = false` and the rule's reason
appears in `errors` (as the entry `BLOCKED: reason`, hence as a substring of an
error entry) — for every artifact kind and regardless of the syntax probe and
of whichever flag rules also match. -/
theorem c1_block_rule_rejects (parseErr : Option String) (code : String) (ty : CodeType)
    (r : ScanRule) (hr : r ∈ blockPatterns) (ht : r.test code = true) :
    (validate parseErr code ty).valid = false ∧
    ("BLOCKED: " ++ r.reason) ∈ (validate parseErr code ty).errors ∧
    ∃ e ∈ (validate parseErr code ty).errors, r.reason.data <:+: e.data := by
  have hmem : ("BLOCKED: " ++ r.reason) ∈ validateErrors parseErr code ty :=
    blocked_mem_errors hr ht
  refine ⟨isEmpty_false_of_mem hmem, hmem, ⟨"BLOCKED: " ++ r.reason, hmem, ?_⟩⟩
  have hd : ("BLOCKED: " ++ r.reason).data = "BLOCKED: ".data ++ r.reason.data := rfl
  rw [hd]
  exact (List.suffix_append "BLOCKED: ".data r.reason.data).isInfix

/-- C1 witness: the text `crontab` matches the System persistence block rule
(index 10) and is rejected with that reason in `errors`. -/
theorem c1_witness :
    (validate none "crontab" CodeType.tool).valid = false ∧
    ("BLOCKED: " ++ (blockPatterns.get ⟨10, by decide⟩).reason) ∈
      (validate none "crontab" CodeType.tool).errors :=
  ⟨(c1_block_rule_rejects none "crontab" CodeType.tool _
      (List.get_mem blockPatterns 10 (by decide)) (by decide)).1,
   (c1_block_rule_rejects none "crontab" CodeType.tool _
      (List.get_mem blockPatterns 10 (by decide)) (by decide)).2.1⟩

/-! ## C8 -/

/-- C8 counterexample: the claim says the structural check alone can never
make `valid = false` for an extension, but the extension candidate `1`
(syntactically valid JavaScript, no block-rule match) is rejected with the
structural error `Extension missing 'export default'` — the missing
registration entry point is an error, not a warning. -/
theorem c8_counterexample :
    (staticSecurityScan "1").blocked = [] ∧
    validate none "1" CodeType.extension =
      { valid := false
        errors := ["Extension missing \x27export default\x27"]
        warnings := ["Extension doesn\x27t register any tools"]
        securityFlags := [] } := by
  constructor
  · rfl
  · rfl

/-- C8 amended: for an extension candidate with no block-rule match and no
syntax error, the absence of registered capabilities (`api.registerTool`)
produces only a warning, but a missing `export default` registration entry
point produces an error: the verdict is valid exactly when the code contains
`export default`, so the structural check alone can make `valid = false`. -/
theorem c8_amended (code : String) (hb : (staticSecurityScan code).blocked = []) :
    (validate none code CodeType.extension).valid = containsStr code "export default" ∧
    ((validate none code CodeType.extension).errors =
      if containsStr code "export default" then []
      else ["Extension missing \x27export default\x27"]) ∧
    (("Extension doesn\x27t register any tools") ∈
        (validate none code CodeType.extension).warnings ↔
      containsStr code "api.registerTool" = false) := by
  have herr : (validate none code CodeType.extension).errors =
      if containsStr code "export default" then []
      else ["Extension missing \x27export default\x27"] := by
    show validateErrors none code CodeType.extension = _
    unfold validateErrors
    rw [hb]
    simp
  refine ⟨?_, herr, ?_⟩
  · show (validateErrors none code CodeType.extension).isEmpty = _
    have : validateErrors none code CodeType.extension =
        if containsStr code "export default" then []
        else ["Extension missing \x27export default\x27"] := herr
    rw [this]
    cases containsStr code "export default" with
    | false => rfl
    | true => rfl
  · show _ ∈ validateWarnings code CodeType.extension ↔ _
    unfold validateWarnings
    cases hreg : containsStr code "api.registerTool" with
    | false =>
      simp only [if_pos rfl, hreg, Bool.false_eq_true, if_false]
      constructor
      · intro _; trivial
      · intro _
        exact List.mem_append.mpr (Or.inl (List.mem_singleton.mpr rfl))
    | true =>
      simp only [if_pos rfl, hreg, if_true]
      constructor
      · intro hmem
        rcases List.mem_append.mp hmem with h | h
        · cases h
        · by_cases hloop : (regexSearch (fun _ l => whileTrueAt l) code.data
              && !(containsStr code "break" || containsStr code "return")) = true
          · rw [if_pos hloop] at h
            simp at h
          · rw [if_neg hloop] at h
            cases h
      · intro h; cases h

/-- C8 witness for the amended theorem at `export default 1`. -/
theorem c8_amended_witness :
    (validate none "export default 1" CodeType.extension).valid =
      containsStr "export default 1" "export default" :=
  (c8_amended "export default 1" (by decide)).1

/-! ## C3 -/

/-- C3 counterexample: submitting the literal source text
`require(child_process)` (no quote characters) matches no security rule at
all — the child-process block regex requires a quoted module name — so the
verdict contains no shell-execution finding; it is invalid only for the
structural `export default` error. -/
theorem c3_counterexample :
    (staticSecurityScan "require(child_process)") = { blocked := [], flagged := [] } ∧
    validate none "require(child_process)" CodeType.extension =
      { valid := false
        errors := ["Extension missing \x27export default\x27"]
        warnings := ["Extension doesn\x27t register any tools"]
        securityFlags := [] } := by
  constructor
  · rfl
  · rfl

/-! ## C4 -/

/-- C4 counterexample: on the timeout path the claim fails — `testInSandbox`
resolves with the `SandboxFailure` result `Sandbox timeout (15s)` without the
timeout handler removing the working directory (removal happens only if the
child's later `close` event fires), so the directory is not removed on every
exit path before the call returns. -/
theorem c4_counterexample :
    testInSandboxOutcome SandboxEvent.timeout =
      { success := false
        error := some "Sandbox timeout (15s)"
        cleanedBeforeResult := false } := rfl

/-- C4 amended: the working directory is removed before the result is
produced on the close, spawn-error and setup-exception paths; on the timeout
path a `SandboxFailure` result with diagnostic `Sandbox timeout (15s)` is
produced, but that handler does not remove the working directory — removal
is deferred to the child's later `close` event, after `testInSandbox` has
already returned. -/
theorem c4_amended :
    (∀ e : SandboxEvent, e ≠ SandboxEvent.timeout →
       (testInSandboxOutcome e).cleanedBeforeResult = true) ∧
    (testInSandboxOutcome SandboxEvent.timeout).success = false ∧
    (testInSandboxOutcome SandboxEvent.timeout).error = some "Sandbox timeout (15s)" ∧
    (testInSandboxOutcome SandboxEvent.timeout).cleanedBeforeResult = false := by
  refine ⟨?_, rfl, rfl, rfl⟩
  intro e he
  cases e with
  | close c out err =>
    cases hb : ((c == some 0) && containsStr out "SANDBOX_OK") with
    | true => simp [testInSandboxOutcome, hb]
    | false => simp [testInSandboxOutcome, hb]
  | spawnError m => rfl
  | timeout => exact absurd rfl he
  | setupException m => rfl

/-- C4 witness: a spawn error is an exit path on which the handler removes
the working directory before resolving. -/
theorem c4_amended_witness :
    (testInSandboxOutcome (SandboxEvent.spawnError "spawn npx ENOENT")).cleanedBeforeResult
      = true :=
  c4_amended.1 (SandboxEvent.spawnError "spawn npx ENOENT") (by decide)

/-! ## C5 -/

theorem takeWhile_cons_ne_nil {p : Char → Bool} {c : Char} {cs : List Char}
    (hp : p c = true) : (c :: cs).takeWhile p ≠ [] := by
  simp [List.takeWhile_cons, hp]

theorem isWs_of_isLineBreak {c : Char} (h : isLineBreak c = true) : isWs c = true := by
  have h' : c = '\n' ∨ c = '\r' := by
    unfold isLineBreak at h
    rcases Bool.or_eq_true_iff.mp h with h1 | h1
    · exact Or.inl (of_decide_eq_true h1)
    · exact Or.inr (of_decide_eq_true h1)
  rcases h' with h1 | h1 <;> rw [h1] <;> rfl

theorem captureTail_ne_nil : ∀ {l m : List Char}, captureTail l = some m → m ≠ [] := by
  intro l
  induction l with
  | nil => intro m h; cases h
  | cons c cs ih =>
    intro m h
    unfold captureTail at h
    by_cases hw : isWs c = true
    · rw [if_pos hw] at h
      cases hc : captureTail cs with
      | some mm =>
        rw [hc] at h
        injection h with h
        subst h
        exact ih hc
      | none =>
        rw [hc] at h
        by_cases hlb : isLineBreak c = true
        · rw [if_pos hlb] at h
          cases h
        · rw [if_neg hlb] at h
          injection h with h
          subst h
          exact takeWhile_cons_ne_nil (by simp [Bool.eq_false_iff.mpr hlb])
    · rw [if_neg hw] at h
      injection h with h
      subst h
      have hlb : isLineBreak c = false := by
        cases hx : isLineBreak c with
        | false => rfl
        | true => exact absurd (isWs_of_isLineBreak hx) hw
      exact takeWhile_cons_ne_nil (by simp [hlb])

theorem sandboxErrMatch_ne_empty {stderr m : String}
    (h : sandboxErrMatch stderr = some m) : m ≠ "" := by
  unfold sandboxErrMatch at h
  cases ha : afterFirst "SANDBOX_ERROR:".data stderr.data with
  | none => rw [ha] at h; cases h
  | some rest =>
    rw [ha] at h
    dsimp only at h
    cases hc : captureTail rest with
    | none => rw [hc] at h; cases h
    | some l =>
      rw [hc] at h
      dsimp only [Option.map] at h
      injection h with h
      subst h
      intro hcontra
      exact captureTail_ne_nil hc (by simpa using congrArg String.data hcontra)

theorem closeError_ne_empty (c : Option Int) (stderr : String) :
    closeError c stderr ≠ "" := by
  unfold closeError
  cases h : sandboxErrMatch stderr with
  | some m => exact sandboxErrMatch_ne_empty h
  | none =>
    dsimp only
    by_cases h5 : (⟨stderr.data.take 500⟩ : String) = ""
    · rw [if_pos h5]
      intro hcontra
      have hdata : ("Exit code ".data ++ (exitCodeText c).data : List Char) = [] := by
        have h1 : ("Exit code " ++ exitCodeText c).data
            = "Exit code ".data ++ (exitCodeText c).data := rfl
        rw [← h1, hcontra]
      have h2 : ("Exit code ".data : List Char) = [] := (List.append_eq_nil.mp hdata).1
      exact absurd h2 (by decide)
    · rw [if_neg h5]
      exact h5

/-- C5 counterexample: a spawn failure whose error object carries an empty
message yields `success = false` with the empty string as diagnostic — the
code copies `err.message` verbatim, so the diagnostic is not always
non-empty. -/
theorem c5_counterexample :
    (testInSandboxOutcome (SandboxEvent.spawnError "")).success = false ∧
    (testInSandboxOutcome (SandboxEvent.spawnError "")).error = some "" :=
  ⟨rfl, rfl⟩

/-- C5 amended: `testInSandbox` reports success exactly when the settling
event is a `close` with exit code 0 and the sentinel `SANDBOX_OK` on stdout;
every other combination yields `success = false` with a diagnostic that is
non-empty on the close and timeout paths, and is the underlying error
message verbatim (hence empty only when that message is empty) on the
spawn-failure and setup-exception paths. -/
theorem c5_amended :
    (∀ e : SandboxEvent, (testInSandboxOutcome e).success = true ↔
       ∃ c out err, e = SandboxEvent.close c out err ∧ c = some 0 ∧
         containsStr out "SANDBOX_OK" = true) ∧
    (∀ c out err, (testInSandboxOutcome (SandboxEvent.close c out err)).success = false →
       ∃ s, (testInSandboxOutcome (SandboxEvent.close c out err)).error = some s ∧ s ≠ "") ∧
    ((testInSandboxOutcome SandboxEvent.timeout).success = false ∧
       (testInSandboxOutcome SandboxEvent.timeout).error = some "Sandbox timeout (15s)") ∧
    (∀ m, (testInSandboxOutcome (SandboxEvent.spawnError m)).success = false ∧
       (testInSandboxOutcome (SandboxEvent.spawnError m)).error = some m) ∧
    (∀ m, (testInSandboxOutcome (SandboxEvent.setupException m)).success = false ∧
       (testInSandboxOutcome (SandboxEvent.setupException m)).error = some m) := by
  refine ⟨?_, ?_, ⟨rfl, rfl⟩, fun m => ⟨rfl, rfl⟩, fun m => ⟨rfl, rfl⟩⟩
  · intro e
    cases e with
    | close c out err =>
      cases hb : ((c == some 0) && containsStr out "SANDBOX_OK") with
      | true =>
        obtain ⟨h1, h2⟩ := Bool.and_eq_true_iff.mp hb
        have hs : testInSandboxOutcome (SandboxEvent.close c out err) =
            { success := true, error := none, cleanedBeforeResult := true } := by
          simp [testInSandboxOutcome, hb]
        rw [hs]
        constructor
        · intro _
          exact ⟨c, out, err, rfl, by simpa using h1, h2⟩
        · intro _; rfl
      | false =>
        have hs : testInSandboxOutcome (SandboxEvent.close c out err) =
            { success := false, error := some (closeError c err),
              cleanedBeforeResult := true } := by
          simp [testInSandboxOutcome, hb]
        rw [hs]
        constructor
        · intro hcontra; exact Bool.noConfusion hcontra
        · rintro ⟨c', out', err', heq, hc, hout⟩
          injection heq with e1 e2 e3
          subst e1; subst e2; subst e3
          rw [hc] at hb
          simp [hout] at hb
    | spawnError m =>
      constructor
      · intro hcontra; exact Bool.noConfusion hcontra
      · rintro ⟨c', out', err', heq, _, _⟩; cases heq
    | timeout =>
      constructor
      · intro hcontra; exact Bool.noConfusion hcontra
      · rintro ⟨c', out', err', heq, _, _⟩; cases heq
    | setupException m =>
      constructor
      · intro hcontra; exact Bool.noConfusion hcontra
      · rintro ⟨c', out', err', heq, _, _⟩; cases heq
  · intro c out err hfail
    cases hb : ((c == some 0) && containsStr out "SANDBOX_OK") with
    | true => simp [testInSandboxOutcome, hb] at hfail
    | false =>
      refine ⟨closeError c err, ?_, closeError_ne_empty c err⟩
      simp [testInSandboxOutcome, hb]

/-- C5 witness: a close event with exit code 0 and the sentinel on stdout is
reported as success. -/
theorem c5_witness :
    (testInSandboxOutcome (SandboxEvent.close (some 0) "SANDBOX_OK" "")).success = true :=
  (c5_amended.1 (SandboxEvent.close (some 0) "SANDBOX_OK" "")).mpr
    ⟨some 0, "SANDBOX_OK", "", rfl, rfl, by decide⟩


/-! ## Learning engine (`LearningEngine`)

The learnings array is explicit state (`List LearningEntry`); operation ids
and timestamps (`Date.now()` + random suffix in the source) are parameters.
Each operation returns the new state together with a ghost flag telling
whether `saveLearnings()` (a rewrite of the learnings file) was invoked. -/

inductive LType
  | failure | success | pattern | insight
deriving DecidableEq

structure LearningEntry where
  id : String
  type : LType
  tool : Option String := none
  error : Option String := none
  resolution : Option String := none
  context : Option String := none
  timestamp : String
  useCount : Nat
deriving DecidableEq

/-- The entry pushed by `recordFailure`. -/
def mkFailureEntry (id tool err : String) (context : Option String) (ts : String) :
    LearningEntry :=
  { id := id, type := LType.failure, tool := some tool, error := some err,
    resolution := none, context := context, timestamp := ts, useCount := 0 }

/-- The entry pushed by `recordSuccess` (`useCount: 1`). -/
def mkSuccessEntry (id tool context ts : String) : LearningEntry :=
  { id := id, type := LType.success, tool := some tool, error := none,
    resolution := none, context := some context, timestamp := ts, useCount := 1 }

/-- The entry pushed by `recordInsight` (the insight text is folded into
`context`). -/
def mkInsightEntry (id insight : String) (context : Option String) (ts : String) :
    LearningEntry :=
  { id := id, type := LType.insight, tool := none, error := none, resolution := none,
    context := some (insight ++ (match context with
      | some c => "\n\nContext: " ++ c
      | none => "")),
    timestamp := ts, useCount := 0 }

/-- In-place mutation performed by `recordResolution` on the entry returned
by `find` (the first entry with the given id): attach the resolution and set
`type` to `pattern`. -/
def updateFirst (fid res : String) : List LearningEntry → List LearningEntry
  | [] => []
  | e :: es =>
    if e.id == fid then
      { e with resolution := some res, type := LType.pattern } :: es
    else e :: updateFirst fid res es

/-- `recordSuccess`: push the entry, then if the success entries now exceed
100, drop every entry whose id equals the oldest success entry's id. -/
def recordSuccessList (st : List LearningEntry) (id tool context ts : String) :
    List LearningEntry :=
  if ((st ++ [mkSuccessEntry id tool context ts]).filter
        (fun e => e.type == LType.success)).length > 100 then
    match (st ++ [mkSuccessEntry id tool context ts]).filter
        (fun e => e.type == LType.success) with
    | oldest :: _ =>
      (st ++ [mkSuccessEntry id tool context ts]).filter (fun e => !(e.id == oldest.id))
    | [] => st ++ [mkSuccessEntry id tool context ts]
  else st ++ [mkSuccessEntry id tool context ts]

/-- The mutating operations of `LearningEngine`. -/
inductive LOp
  | recordFailure (id tool err : String) (context : Option String) (ts : String)
  | recordResolution (failureId resolution : String)
  | recordSuccess (id tool context ts : String)
  | recordInsight (id insight : String) (context : Option String) (ts : String)
deriving DecidableEq

/-- One `LearningEngine` operation: the new learnings array and whether
`saveLearnings()` rewrote the file. -/
def applyOp : LOp → List LearningEntry → List LearningEntry × Bool
  | LOp.recordFailure id tool err context ts, st =>
    (st ++ [mkFailureEntry id tool err context ts], true)
  | LOp.recordResolution fid res, st =>
    match st.find? (fun l => l.id == fid) with
    | some _ => (updateFirst fid res st, true)
    | none => (st, false)
  | LOp.recordSuccess id tool context ts, st =>
    (recordSuccessList st id tool context ts, true)
  | LOp.recordInsight id insight context ts, st =>
    (st ++ [mkInsightEntry id insight context ts], true)

def runOps (ops : List LOp) (st : List LearningEntry) : List LearningEntry :=
  ops.foldl (fun s op => (applyOp op s).1) st

/-- The filter of `findRelevantLearnings` (empty strings are falsy in the
JavaScript guards). -/
def lrPred (tool errPat : Option String) (l : LearningEntry) : Bool :=
  (match tool with
   | none => true
   | some t => (t == "") || (l.tool == some t)) &&
  ((match errPat with
    | none => true
    | some p => (p == "") ||
      (match l.error with
       | none => true
       | some e => (e == "") || containsStr e p)) &&
   (l.type == LType.pattern || l.type == LType.insight))

/-- JavaScript `slice(-n)`. -/
def sliceLast (n : Nat) (l : List LearningEntry) : List LearningEntry :=
  l.drop (l.length - n)

/-- `LearningEngine.findRelevantLearnings`. -/
def findRelevantLearnings (st : List LearningEntry) (tool errPat : Option String) :
    List LearningEntry :=
  sliceLast 10 (st.filter (lrPred tool errPat))

/-! ### Learning-engine lemmas -/

theorem updateFirst_length (fid res : String) (st : List LearningEntry) :
    (updateFirst fid res st).length = st.length := by
  induction st with
  | nil => rfl
  | cons e es ih =>
    unfold updateFirst
    by_cases h : (e.id == fid) = true
    · rw [if_pos h]
      rfl
    · rw [if_neg h]
      simp [List.length_cons, ih]

theorem find_updateFirst {fid : String} {st : List LearningEntry} {e : LearningEntry}
    (h : st.find? (fun l => l.id == fid) = some e) (res : String) :
    (updateFirst fid res st).find? (fun l => l.id == fid)
      = some { e with resolution := some res, type := LType.pattern } := by
  induction st with
  | nil => cases h
  | cons a as ih =>
    by_cases ha : (a.id == fid) = true
    · have h2 : (a :: as).find? (fun l => l.id == fid) = some a :=
        List.find?_cons_of_pos _ ha
      rw [h2] at h
      injection h with h
      subst h
      unfold updateFirst
      rw [if_pos ha]
      exact List.find?_cons_of_pos _ ha
    · have h2 : (a :: as).find? (fun l => l.id == fid)
          = as.find? (fun l => l.id == fid) :=
        List.find?_cons_of_neg _ ha
      rw [h2] at h
      unfold updateFirst
      rw [if_neg ha]
      have h3 : (a :: updateFirst fid res as).find? (fun l => l.id == fid)
          = (updateFirst fid res as).find? (fun l => l.id == fid) :=
        List.find?_cons_of_neg _ ha
      rw [h3]
      exact ih h

theorem mem_of_mem_updateFirst {fid res : String} {s : List LearningEntry}
    {x : LearningEntry} (hx : x ∈ updateFirst fid res s) (hty : x.type = LType.failure) :
    x ∈ s := by
  induction s with
  | nil => cases hx
  | cons a as ih =>
    unfold updateFirst at hx
    by_cases ha : (a.id == fid) = true
    · rw [if_pos ha] at hx
      rcases List.mem_cons.mp hx with h | h
      · exfalso
        rw [h] at hty
        exact LType.noConfusion hty
      · exact List.mem_cons_of_mem a h
    · rw [if_neg ha] at hx
      rcases List.mem_cons.mp hx with h | h
      · exact h ▸ List.mem_cons_self a as
      · exact List.mem_cons_of_mem a (ih h)

theorem useCount_mem_updateFirst {fid res : String} {s : List LearningEntry}
    {x : LearningEntry} (hx : x ∈ updateFirst fid res s) :
    ∃ y ∈ s, x.useCount = y.useCount := by
  induction s with
  | nil => cases hx
  | cons a as ih =>
    unfold updateFirst at hx
    by_cases ha : (a.id == fid) = true
    · rw [if_pos ha] at hx
      rcases List.mem_cons.mp hx with h | h
      · exact ⟨a, List.mem_cons_self a as, by rw [h]⟩
      · exact ⟨x, List.mem_cons_of_mem a h, rfl⟩
    · rw [if_neg ha] at hx
      rcases List.mem_cons.mp hx with h | h
      · exact ⟨a, List.mem_cons_self a as, by rw [h]⟩
      · obtain ⟨y, hy, he⟩ := ih h
        exact ⟨y, List.mem_cons_of_mem a hy, he⟩

theorem mem_recordSuccessList {st : List LearningEntry} {id tool context ts : String}
    {x : LearningEntry} (hx : x ∈ recordSuccessList st id tool context ts) :
    x ∈ st ++ [mkSuccessEntry id tool context ts] := by
  unfold recordSuccessList at hx
  split at hx
  · split at hx
    · exact (List.mem_filter.mp hx).1
    · exact hx
  · exact hx

/-- Any failure entry present after one operation was already a failure
entry before it, except the fresh entry of a `recordFailure`. -/
theorem failure_provenance_step (op : LOp) (s : List LearningEntry) (x : LearningEntry)
    (hx : x ∈ (applyOp op s).1) (hty : x.type = LType.failure) :
    x ∈ s ∨ ∃ id tool err ctx ts,
      op = LOp.recordFailure id tool err ctx ts ∧ x = mkFailureEntry id tool err ctx ts := by
  cases op with
  | recordFailure id tool err ctx ts =>
    rcases List.mem_append.mp hx with h | h
    · exact Or.inl h
    · exact Or.inr ⟨id, tool, err, ctx, ts, rfl, List.mem_singleton.mp h⟩
  | recordResolution fid res =>
    cases hf : s.find? (fun l => l.id == fid) with
    | some e0 =>
      have heq : (applyOp (LOp.recordResolution fid res) s).1 = updateFirst fid res s := by
        simp only [applyOp, hf]
      rw [heq] at hx
      exact Or.inl (mem_of_mem_updateFirst hx hty)
    | none =>
      have heq : (applyOp (LOp.recordResolution fid res) s).1 = s := by
        simp only [applyOp, hf]
      rw [heq] at hx
      exact Or.inl hx
  | recordSuccess id tool ctx ts =>
    left
    rcases List.mem_append.mp (mem_recordSuccessList hx) with h | h
    · exact h
    · exfalso
      rw [List.mem_singleton.mp h] at hty
      exact LType.noConfusion hty
  | recordInsight id insight ctx ts =>
    left
    rcases List.mem_append.mp hx with h | h
    · exact h
    · exfalso
      rw [List.mem_singleton.mp h] at hty
      exact LType.noConfusion hty

/-- Over any operation sequence: a failure entry in the final state was in
the initial state or was created as a failure by a `recordFailure` in the
sequence — in particular no entry's `type` ever moves from `pattern` back to
`failure`. -/
theorem failure_provenance_run :
    ∀ (ops : List LOp) (s : List LearningEntry) (x : LearningEntry),
      x ∈ runOps ops s → x.type = LType.failure →
      x ∈ s ∨ ∃ op ∈ ops, ∃ id tool err ctx ts,
        op = LOp.recordFailure id tool err ctx ts ∧ x = mkFailureEntry id tool err ctx ts := by
  intro ops
  induction ops with
  | nil => exact fun s x hx _ => Or.inl hx
  | cons op rest ih =>
    intro s x hx hty
    have hx' : x ∈ runOps rest (applyOp op s).1 := hx
    rcases ih _ x hx' hty with h | ⟨op', hop', hex⟩
    · rcases failure_provenance_step op s x h hty with h2 | h2
      · exact Or.inl h2
      · exact Or.inr ⟨op, List.mem_cons_self _ _, h2⟩
    · exact Or.inr ⟨op', List.mem_cons_of_mem _ hop', hex⟩

/-- No operation raises any entry's `useCount`: every entry after one
operation carries the `useCount` of some pre-existing entry or a fresh value
of at most 1.  (There is no code path that increments `useCount`, so no
pattern can ever be driven to a crystallization threshold.) -/
theorem useCount_provenance (op : LOp) (s : List LearningEntry) (x : LearningEntry)
    (hx : x ∈ (applyOp op s).1) :
    (∃ y ∈ s, x.useCount = y.useCount) ∨ x.useCount ≤ 1 := by
  cases op with
  | recordFailure id tool err ctx ts =>
    rcases List.mem_append.mp hx with h | h
    · exact Or.inl ⟨x, h, rfl⟩
    · right
      rw [List.mem_singleton.mp h]
      exact Nat.zero_le 1
  | recordResolution fid res =>
    cases hf : s.find? (fun l => l.id == fid) with
    | some e0 =>
      have heq : (applyOp (LOp.recordResolution fid res) s).1 = updateFirst fid res s := by
        simp only [applyOp, hf]
      rw [heq] at hx
      exact Or.inl (useCount_mem_updateFirst hx)
    | none =>
      have heq : (applyOp (LOp.recordResolution fid res) s).1 = s := by
        simp only [applyOp, hf]
      rw [heq] at hx
      exact Or.inl ⟨x, hx, rfl⟩
  | recordSuccess id tool ctx ts =>
    rcases List.mem_append.mp (mem_recordSuccessList hx) with h | h
    · exact Or.inl ⟨x, h, rfl⟩
    · right
      rw [List.mem_singleton.mp h]
      exact Nat.le_refl 1
  | recordInsight id insight ctx ts =>
    rcases List.mem_append.mp hx with h | h
    · exact Or.inl ⟨x, h, rfl⟩
    · right
      rw [List.mem_singleton.mp h]
      exact Nat.zero_le 1

/-! ## C7 -/

/-- C7: given a failure entry found by id, `recordResolution` turns it into a
pattern entry (resolution attached) exactly once; a second call with the same
id rewrites the resolution in place — the entry count never changes and no
second entry appears — and over any operation sequence a failure entry in the
final state was either already a failure or freshly created by
`recordFailure`, so no entry ever moves from `pattern` back to `failure`. -/
theorem c7_resolution_lifecycle (st : List LearningEntry) (e : LearningEntry)
    (fid r1 r2 : String)
    (hfind : st.find? (fun l => l.id == fid) = some e) (_hty : e.type = LType.failure) :
    (applyOp (LOp.recordResolution fid r1) st).1.find? (fun l => l.id == fid)
      = some { e with resolution := some r1, type := LType.pattern } ∧
    (applyOp (LOp.recordResolution fid r2)
        (applyOp (LOp.recordResolution fid r1) st).1).1.find? (fun l => l.id == fid)
      = some { e with resolution := some r2, type := LType.pattern } ∧
    (applyOp (LOp.recordResolution fid r1) st).1.length = st.length ∧
    (applyOp (LOp.recordResolution fid r2)
        (applyOp (LOp.recordResolution fid r1) st).1).1.length = st.length ∧
    (∀ (ops : List LOp) (s : List LearningEntry) (x : LearningEntry),
       x ∈ runOps ops s → x.type = LType.failure →
       x ∈ s ∨ ∃ op ∈ ops, ∃ id tool err ctx ts,
         op = LOp.recordFailure id tool err ctx ts ∧ x = mkFailureEntry id tool err ctx ts) := by
  have h1 : (applyOp (LOp.recordResolution fid r1) st).1 = updateFirst fid r1 st := by
    simp only [applyOp, hfind]
  have hfind1 : (updateFirst fid r1 st).find? (fun l => l.id == fid)
      = some { e with resolution := some r1, type := LType.pattern } :=
    find_updateFirst hfind r1
  have h2 : (applyOp (LOp.recordResolution fid r2) (updateFirst fid r1 st)).1
      = updateFirst fid r2 (updateFirst fid r1 st) := by
    simp only [applyOp, hfind1]
  have hfind2 := find_updateFirst hfind1 r2
  refine ⟨?_, ?_, ?_, ?_, failure_provenance_run⟩
  · rw [h1]
    exact hfind1
  · rw [h1, h2]
    exact hfind2
  · rw [h1]
    exact updateFirst_length fid r1 st
  · rw [h1, h2, updateFirst_length, updateFirst_length]

/-- C7 state for the witness: one unresolved failure entry. -/
def c7st : List LearningEntry := [mkFailureEntry "f1" "toolA" "boom" none "t0"]

/-- C7 witness: resolving that failure yields the pattern entry, in place. -/
theorem c7_witness :
    (applyOp (LOp.recordResolution "f1" "use retry") c7st).1.find? (fun l => l.id == "f1")
      = some { mkFailureEntry "f1" "toolA" "boom" none "t0" with
               resolution := some "use retry", type := LType.pattern } :=
  (c7_resolution_lifecycle c7st (mkFailureEntry "f1" "toolA" "boom" none "t0")
    "f1" "use retry" "use retry v2" (by decide) (by decide)).1

/-! ## C10 -/

/-- C10: `recordResolution` with an id matching no entry is a silent no-op —
the learnings array is unchanged and `saveLearnings()` is not invoked (the
ghost flag is `false`); the operation is a total function, so no error
reaches the caller. -/
theorem c10_unknown_id_noop (st : List LearningEntry) (fid res : String)
    (h : st.find? (fun l => l.id == fid) = none) :
    applyOp (LOp.recordResolution fid res) st = (st, false) := by
  simp only [applyOp, h]

/-- C10 witness: resolving an id absent from a non-empty state changes
nothing and does not rewrite the file. -/
theorem c10_witness :
    applyOp (LOp.recordResolution "no-such-id" "fix") c7st = (c7st, false) :=
  c10_unknown_id_noop c7st "no-such-id" "fix" (by decide)

/-! ## C9 -/

def c9p1 : LearningEntry :=
  { id := "p1", type := LType.pattern, tool := some "toolA", error := some "e1",
    resolution := some "r1", context := none,
    timestamp := "2024-01-01T00:00:00Z", useCount := 0 }

def c9p2 : LearningEntry :=
  { id := "p2", type := LType.pattern, tool := some "toolA", error := some "e2",
    resolution := some "r2", context := none,
    timestamp := "2024-01-02T00:00:00Z", useCount := 0 }

/-- C9 counterexample: with two pattern entries recorded oldest first,
`findRelevantLearnings` returns them in insertion (oldest-first) order —
`slice(-10)` keeps the original order — so the result is not ordered
most-recent-first: `c9p2` is the more recent entry (recorded second, with the
later timestamp `2024-01-02`), yet the result starts with the older `c9p1`
instead of being `[c9p2, c9p1]`. -/
theorem c9_counterexample :
    findRelevantLearnings [c9p1, c9p2] none none = [c9p1, c9p2] ∧
    c9p1 ≠ c9p2 ∧
    findRelevantLearnings [c9p1, c9p2] none none ≠ [c9p2, c9p1] := by
  refine ⟨by decide, by decide, by decide⟩

/-- C9 amended: `findRelevantLearnings` returns only `pattern`/`insight`
entries and at most 10 of them — namely the last `min 10 n` matching entries
(`slice(-10)`) kept in list (insertion, i.e. oldest-first) order, not
most-recent-first. -/
theorem c9_amended (st : List LearningEntry) (tool errPat : Option String) :
    (findRelevantLearnings st tool errPat).all
        (fun e => e.type == LType.pattern || e.type == LType.insight) = true ∧
    (findRelevantLearnings st tool errPat).length ≤ 10 ∧
    (findRelevantLearnings st tool errPat) <:+ st.filter (lrPred tool errPat) ∧
    (findRelevantLearnings st tool errPat).length
      = min 10 (st.filter (lrPred tool errPat)).length := by
  refine ⟨?_, ?_, ?_, ?_⟩
  · rw [List.all_eq_true]
    intro x hx
    have hx' : x ∈ st.filter (lrPred tool errPat) := by
      unfold findRelevantLearnings sliceLast at hx
      exact List.mem_of_mem_drop hx
    have hp := (List.mem_filter.mp hx').2
    unfold lrPred at hp
    obtain ⟨-, h2⟩ := Bool.and_eq_true_iff.mp hp
    obtain ⟨-, h3⟩ := Bool.and_eq_true_iff.mp h2
    exact h3
  · unfold findRelevantLearnings sliceLast
    rw [List.length_drop]
    omega
  · unfold findRelevantLearnings sliceLast
    exact List.drop_suffix _ _
  · unfold findRelevantLearnings sliceLast
    rw [List.length_drop]
    omega

/-- C9 witness for the amended theorem at a concrete state. -/
theorem c9_amended_witness :
    (findRelevantLearnings [c9p1, c9p2] none none).length ≤ 10 :=
  (c9_amended [c9p1, c9p2] none none).2.1

/-! ## C6 -/

/-- The C6 scenario: a failure, its resolution (making it a pattern), then
six recorded successes — the spec's "repeated simulated successes". -/
def c6ops : List LOp :=
  [LOp.recordFailure "f1" "toolA" "boom" none "t0",
   LOp.recordResolution "f1" "add retry",
   LOp.recordSuccess "s1" "toolA" "ok" "t1",
   LOp.recordSuccess "s2" "toolA" "ok" "t2",
   LOp.recordSuccess "s3" "toolA" "ok" "t3",
   LOp.recordSuccess "s4" "toolA" "ok" "t4",
   LOp.recordSuccess "s5" "toolA" "ok" "t5",
   LOp.recordSuccess "s6" "toolA" "ok" "t6"]

/-- C6 (code bug): after a failure is resolved into a pattern and six
successes are recorded, the pattern's `useCount` is still 0 — no operation
of the implemented `LearningEngine` increments `useCount` (see also
`useCount_provenance`), and the engine contains no promotion/crystallization
code path at all, so zero promotion events occur instead of the documented
exactly-one once τ_crystallize = 5 is crossed. -/
theorem c6_no_promotion_mechanism :
    (runOps c6ops []).filter (fun e => e.type == LType.pattern)
      = [{ id := "f1", type := LType.pattern, tool := some "toolA",
           error := some "boom", resolution := some "add retry", context := none,
           timestamp := "t0", useCount := 0 }] ∧
    (runOps c6ops []).all (fun e => decide (e.useCount ≤ 1)) = true := by
  refine ⟨by decide, by decide⟩

/-! ## Code writer (`CodeWriter`)

Extension definitions, template rendering (`EXTENSION_TEMPLATE`,
`TOOL_TEMPLATE`, `HOOK_TEMPLATE`, `PLUGIN_JSON_TEMPLATE` with their
`.replace(/\{\{X\}\}/g, ...)` chains), and the manifest as explicit state.
File writes (`writeFileSync`) are a ghost list of path/content pairs.  The
timestamp `new Date().toISOString()` is a parameter `now`. -/

structure PropDef where
  type : String
  description : String
deriving DecidableEq

structure ToolDef where
  name : String
  label : Option String := none
  description : String
  properties : List (String × PropDef)
  required : List String
  code : String
deriving DecidableEq

structure HookDef where
  event : String
  code : String
deriving DecidableEq

structure ExtensionDef where
  id : String
  name : String
  description : String
  tools : List ToolDef
  hooks : List HookDef
  createdAt : String
deriving DecidableEq

/-- Global literal replacement (`String.replace` with a `/g` regex of
literal characters): leftmost, non-overlapping, the replacement is not
rescanned.  The fuel is the haystack length (each step consumes at least one
character). -/
def replaceAllAux : Nat → List Char → List Char → List Char → List Char
  | _, _, _, [] => []
  | 0, _, _, l => l
  | fuel + 1, pat, rep, c :: cs =>
    match stripLit pat (c :: cs) with
    | some rest => rep ++ replaceAllAux fuel pat rep rest
    | none => c :: replaceAllAux fuel pat rep cs

def replaceAll (s pat rep : String) : String :=
  if pat = "" then s else ⟨replaceAllAux s.data.length pat.data rep.data s.data⟩

/-- JavaScript `split("\n")`. -/
def splitOnNl : List Char → List (List Char)
  | [] => [[]]
  | c :: cs =>
    if c = '\n' then [] :: splitOnNl cs
    else match splitOnNl cs with
      | h :: t => (c :: h) :: t
      | [] => [[c]]

/-- JavaScript `Array.join(sep)`. -/
def joinSep (sep : String) : List String → String
  | [] => ""
  | [s] => s
  | s :: rest => s ++ sep ++ joinSep sep rest

/-- `code.split("\n").map(l => ind + l).join("\n")`. -/
def indentWith (ind code : String) : String :=
  joinSep "\n" ((splitOnNl code.data).map (fun l => ind ++ (⟨l⟩ : String)))

/-- `.replace(/"/g, REVERSE-SOLIDUS QUOTE)`. -/
def escQuotes (s : String) : String := replaceAll s "\"" "\\\""

def EXTENSION_TEMPLATE : String :=
  "/**\n" ++
  " * \x7b\x7bNAME\x7d\x7d — Auto-generated by foundry\n" ++
  " * \x7b\x7bDESCRIPTION\x7d\x7d\n" ++
  " * Generated: \x7b\x7bDATE\x7d\x7d\n" ++
  " */\n" ++
  "\n" ++
  "import type \x7b ClawdbotPluginApi \x7d from \"clawdbot/plugin-sdk\";\n" ++
  "\n" ++
  "export default \x7b\n" ++
  "  id: \"\x7b\x7bID\x7d\x7d\",\n" ++
  "  name: \"\x7b\x7bNAME\x7d\x7d\",\n" ++
  "  description: \"\x7b\x7bDESCRIPTION\x7d\x7d\",\n" ++
  "\n" ++
  "  register(api: ClawdbotPluginApi) \x7b\n" ++
  "    const logger = api.logger;\n" ++
  "\n" ++
  "\x7b\x7bTOOLS\x7d\x7d\n" ++
  "\n" ++
  "\x7b\x7bHOOKS\x7d\x7d\n" ++
  "\n" ++
  "    logger.info(\"[\x7b\x7bID\x7d\x7d] Extension loaded\");\n" ++
  "  \x7d,\n" ++
  "\x7d;\n"

def TOOL_TEMPLATE : String :=
  "    api.registerTool(\x7b\n" ++
  "      name: \"\x7b\x7bNAME\x7d\x7d\",\n" ++
  "      label: \"\x7b\x7bLABEL\x7d\x7d\",\n" ++
  "      description: \"\x7b\x7bDESCRIPTION\x7d\x7d\",\n" ++
  "      parameters: \x7b\n" ++
  "        type: \"object\",\n" ++
  "        properties: \x7b\n" ++
  "\x7b\x7bPROPERTIES\x7d\x7d\n" ++
  "        \x7d,\n" ++
  "        required: [\x7b\x7bREQUIRED\x7d\x7d],\n" ++
  "      \x7d,\n" ++
  "      async execute(_toolCallId: string, params: unknown) \x7b\n" ++
  "        const p = params as any;\n" ++
  "\x7b\x7bCODE\x7d\x7d\n" ++
  "      \x7d,\n" ++
  "    \x7d);\n"

def HOOK_TEMPLATE : String :=
  "    api.on(\"\x7b\x7bEVENT\x7d\x7d\", async (event: any, ctx: any) => \x7b\n" ++
  "\x7b\x7bCODE\x7d\x7d\n" ++
  "    \x7d);\n"

def PLUGIN_JSON_TEMPLATE : String :=
  "\x7b\n" ++
  "  \"id\": \"\x7b\x7bID\x7d\x7d\",\n" ++
  "  \"name\": \"\x7b\x7bNAME\x7d\x7d\",\n" ++
  "  \"description\": \"\x7b\x7bDESCRIPTION\x7d\x7d\",\n" ++
  "  \"version\": \"0.1.0\",\n" ++
  "  \"configSchema\": \x7b\n" ++
  "    \"type\": \"object\",\n" ++
  "    \"properties\": \x7b\x7d,\n" ++
  "    \"additionalProperties\": false\n" ++
  "  \x7d\n" ++
  "\x7d\n"

/-- One tool rendered through `TOOL_TEMPLATE` (properties and required are
rendered first; `t.label || t.name` — an empty label is falsy). -/
def genToolCode (t : ToolDef) : String :=
  replaceAll (replaceAll (replaceAll (replaceAll (replaceAll (replaceAll
    TOOL_TEMPLATE
    "\x7b\x7bNAME\x7d\x7d" t.name)
    "\x7b\x7bLABEL\x7d\x7d" (match t.label with
      | some l => if l = "" then t.name else l
      | none => t.name))
    "\x7b\x7bDESCRIPTION\x7d\x7d" (escQuotes t.description))
    "\x7b\x7bPROPERTIES\x7d\x7d" (joinSep "\n" (t.properties.map (fun kv =>
      "          " ++ kv.1 ++ ": \x7b type: \"" ++ kv.2.type ++ "\", description: \""
        ++ escQuotes kv.2.description ++ "\" \x7d,"))))
    "\x7b\x7bREQUIRED\x7d\x7d" (joinSep ", " (t.required.map (fun r => "\"" ++ r ++ "\""))))
    "\x7b\x7bCODE\x7d\x7d" (indentWith "        " t.code)

/-- One hook rendered through `HOOK_TEMPLATE`. -/
def genHookCode (h : HookDef) : String :=
  replaceAll (replaceAll HOOK_TEMPLATE
    "\x7b\x7bEVENT\x7d\x7d" h.event)
    "\x7b\x7bCODE\x7d\x7d" (indentWith "      " h.code)

/-- The extension source text produced by `writeExtension` before
validation. -/
def genExtensionCode (d : ExtensionDef) : String :=
  replaceAll (replaceAll (replaceAll (replaceAll (replaceAll (replaceAll
    EXTENSION_TEMPLATE
    "\x7b\x7bID\x7d\x7d" d.id)
    "\x7b\x7bNAME\x7d\x7d" d.name)
    "\x7b\x7bDESCRIPTION\x7d\x7d" d.description)
    "\x7b\x7bDATE\x7d\x7d" d.createdAt)
    "\x7b\x7bTOOLS\x7d\x7d" (joinSep "\n" (d.tools.map genToolCode)))
    "\x7b\x7bHOOKS\x7d\x7d" (joinSep "\n" (d.hooks.map genHookCode))

def genPluginJson (d : ExtensionDef) : String :=
  replaceAll (replaceAll (replaceAll PLUGIN_JSON_TEMPLATE
    "\x7b\x7bID\x7d\x7d" d.id)
    "\x7b\x7bNAME\x7d\x7d" d.name)
    "\x7b\x7bDESCRIPTION\x7d\x7d" d.description

/-- The `CodeWriter` manifest (`extensions`; the skill list is untouched by
every operation these claims concern) plus a ghost log of file writes. -/
structure WriterState where
  extensions : List ExtensionDef
  files : List (String × String)
deriving DecidableEq

/-- External effects used by `writeExtension` when a validator is passed:
the `new Function(code)` probe and the `testInSandbox` child process. -/
structure ValidatorOracle where
  parseErr : Option String
  sandbox : String → Bool × Option String

/-- `findIndex`-then-replace, else push (`upsert` semantics of the
manifest). -/
def upsertById : List ExtensionDef → ExtensionDef → List ExtensionDef
  | [], full => [full]
  | e :: es, full => if e.id == full.id then full :: es else e :: upsertById es full

/-- In-place mutation of the found manifest object (`ext.tools.push(tool)`
mutates the entry inside the manifest array). -/
def setFirstById : List ExtensionDef → ExtensionDef → List ExtensionDef
  | [], _ => []
  | e :: es, e2 => if e.id == e2.id then e2 :: es else e :: setFirstById es e2

/-- The writes performed once validation has been passed (or skipped):
`index.ts`, `clawdbot.plugin.json`, and the manifest upsert + save. -/
def persistExtension (st : WriterState) (full : ExtensionDef) (code : String) : WriterState :=
  { extensions := upsertById st.extensions full,
    files := st.files
      ++ [("~/.clawdbot/extensions/" ++ full.id ++ "/index.ts", code),
          ("~/.clawdbot/extensions/" ++ full.id ++ "/clawdbot.plugin.json",
           genPluginJson full)] }

/-- `CodeWriter.writeExtension`: regenerate the source from the definition
(with a fresh `createdAt`), validate and sandbox-test it only when a
validator is supplied (throwing before any write when either fails), then
write the files and upsert the manifest. -/
def writeExtension (st : WriterState) (d : ExtensionDef) (now : String)
    (validator : Option ValidatorOracle) :
    Except String (WriterState × ValidationResult) :=
  match validator with
  | some v =>
    if (validate v.parseErr (genExtensionCode { d with createdAt := now })
          CodeType.extension).valid then
      match v.sandbox (genExtensionCode { d with createdAt := now }) with
      | (true, _) =>
        Except.ok (persistExtension st { d with createdAt := now }
                     (genExtensionCode { d with createdAt := now }),
                   validate v.parseErr (genExtensionCode { d with createdAt := now })
                     CodeType.extension)
      | (false, errMsg) =>
        Except.error ("Sandbox test failed: " ++ (match errMsg with
          | some e => e
          | none => "undefined"))
    else
      Except.error ("Code validation failed: " ++ joinSep ", "
        (validate v.parseErr (genExtensionCode { d with createdAt := now })
           CodeType.extension).errors)
  | none =>
    Except.ok (persistExtension st { d with createdAt := now }
                 (genExtensionCode { d with createdAt := now }),
               { valid := true, errors := [], warnings := [], securityFlags := [] })

/-- `CodeWriter.addTool`: find the extension, push the tool into the
manifest object in place, then call `writeExtension(ext)` — with NO
validator and without awaiting. -/
def addTool (st : WriterState) (extensionId : String) (t : ToolDef) (now : String) :
    WriterState × Bool :=
  match st.extensions.find? (fun e => e.id == extensionId) with
  | none => (st, false)
  | some ext =>
    match writeExtension
        { st with extensions := (setFirstById st.extensions
            { ext with tools := ext.tools ++ [t] }) }
        { ext with tools := ext.tools ++ [t] } now none with
    | Except.ok (st2, _) => (st2, true)
    | Except.error _ =>
      ({ st with extensions := (setFirstById st.extensions
          { ext with tools := ext.tools ++ [t] }) }, true)

/-- `CodeWriter.addHook`, same shape as `addTool`. -/
def addHook (st : WriterState) (extensionId : String) (h : HookDef) (now : String) :
    WriterState × Bool :=
  match st.extensions.find? (fun e => e.id == extensionId) with
  | none => (st, false)
  | some ext =>
    match writeExtension
        { st with extensions := (setFirstById st.extensions
            { ext with hooks := ext.hooks ++ [h] }) }
        { ext with hooks := ext.hooks ++ [h] } now none with
    | Except.ok (st2, _) => (st2, true)
    | Except.error _ =>
      ({ st with extensions := (setFirstById st.extensions
          { ext with hooks := ext.hooks ++ [h] }) }, true)

theorem writeExtension_invalid_error (st : WriterState) (d : ExtensionDef) (now : String)
    (v : ValidatorOracle)
    (h : (validate v.parseErr (genExtensionCode { d with createdAt := now })
           CodeType.extension).valid = false) :
    writeExtension st d now (some v)
      = Except.error ("Code validation failed: " ++ joinSep ", "
          (validate v.parseErr (genExtensionCode { d with createdAt := now })
             CodeType.extension).errors) := by
  unfold writeExtension
  dsimp only
  rw [if_neg (by rw [h]; exact Bool.false_ne_true)]

/-! ## C2 -/

def c2ext0 : ExtensionDef :=
  { id := "weather-ext", name := "Weather", description := "demo",
    tools := [], hooks := [], createdAt := "2024-01-01T00:00:00Z" }

def c2tool : ToolDef :=
  { name := "runCron", label := none, description := "demo tool",
    properties := [], required := [], code := "crontab -l" }

def c2st0 : WriterState := { extensions := [c2ext0], files := [] }

/-- The definition `addTool` persists: the pushed tool and a fresh
`createdAt`. -/
def c2ext1 : ExtensionDef :=
  { c2ext0 with tools := [c2tool], createdAt := "2024-01-02T00:00:00Z" }

def c2hook : HookDef := { event := "message", code := "eval(input)" }

/-- The definition `addHook` persists: the pushed hook and a fresh
`createdAt`. -/
def c2ext1h : ExtensionDef :=
  { c2ext0 with hooks := [c2hook], createdAt := "2024-01-02T00:00:00Z" }

/-- C2 counterexample: both mutations of a stored extension persist the
modified definition although its generated code fails validation —
`addTool` pushes a tool whose body invokes `crontab` (block rule
`System persistence`) and `addHook` pushes a hook whose body invokes
`eval(` (block rule `eval() usage`) — yet each goes through
`writeExtension` with no validator, so no re-validation happens and the
unvalidated definitions land in the manifest. -/
theorem c2_counterexample :
    (addTool c2st0 "weather-ext" c2tool "2024-01-02T00:00:00Z").2 = true ∧
    (addTool c2st0 "weather-ext" c2tool "2024-01-02T00:00:00Z").1.extensions = [c2ext1] ∧
    (validate none (genExtensionCode c2ext1) CodeType.extension).valid = false ∧
    "BLOCKED: System persistence" ∈
      (validate none (genExtensionCode c2ext1) CodeType.extension).errors ∧
    (addHook c2st0 "weather-ext" c2hook "2024-01-02T00:00:00Z").2 = true ∧
    (addHook c2st0 "weather-ext" c2hook "2024-01-02T00:00:00Z").1.extensions = [c2ext1h] ∧
    (validate none (genExtensionCode c2ext1h) CodeType.extension).valid = false ∧
    "BLOCKED: eval() usage" ∈
      (validate none (genExtensionCode c2ext1h) CodeType.extension).errors := by
  refine ⟨rfl, by decide, by decide, by decide, rfl, by decide, by decide, by decide⟩

/-- C2 amended: a `writeExtension` call that carries a validator does gate
persistence on the full validation cycle — when validation of the
regenerated code fails it returns an error and persists nothing — but
`addTool` and `addHook` on an existing extension always re-write the
modified definition through `writeExtension` with no validator,
unconditionally upserting it into the manifest with no validation at
all. -/
theorem c2_amended :
    (∀ (st : WriterState) (d : ExtensionDef) (now : String) (v : ValidatorOracle),
       (validate v.parseErr (genExtensionCode { d with createdAt := now })
          CodeType.extension).valid = false →
       writeExtension st d now (some v)
         = Except.error ("Code validation failed: " ++ joinSep ", "
             (validate v.parseErr (genExtensionCode { d with createdAt := now })
                CodeType.extension).errors)) ∧
    (∀ (st : WriterState) (extId : String) (t : ToolDef) (now : String) (ext : ExtensionDef),
       st.extensions.find? (fun e => e.id == extId) = some ext →
       (addTool st extId t now).2 = true ∧
       (addTool st extId t now).1.extensions
         = upsertById (setFirstById st.extensions { ext with tools := ext.tools ++ [t] })
             { ext with tools := ext.tools ++ [t], createdAt := now }) ∧
    (∀ (st : WriterState) (extId : String) (hk : HookDef) (now : String) (ext : ExtensionDef),
       st.extensions.find? (fun e => e.id == extId) = some ext →
       (addHook st extId hk now).2 = true ∧
       (addHook st extId hk now).1.extensions
         = upsertById (setFirstById st.extensions { ext with hooks := ext.hooks ++ [hk] })
             { ext with hooks := ext.hooks ++ [hk], createdAt := now }) := by
  refine ⟨fun st d now v h => writeExtension_invalid_error st d now v h, ?_, ?_⟩
  · intro st extId t now ext hfind
    have haddTool : addTool st extId t now
        = ((persistExtension
              { st with extensions := (setFirstById st.extensions
                  { ext with tools := ext.tools ++ [t] }) }
              { ext with tools := ext.tools ++ [t], createdAt := now }
              (genExtensionCode { ext with tools := ext.tools ++ [t], createdAt := now })),
           true) := by
      unfold addTool
      rw [hfind]
      exact rfl
    rw [haddTool]
    exact ⟨rfl, rfl⟩
  · intro st extId hk now ext hfind
    have haddHook : addHook st extId hk now
        = ((persistExtension
              { st with extensions := (setFirstById st.extensions
                  { ext with hooks := ext.hooks ++ [hk] }) }
              { ext with hooks := ext.hooks ++ [hk], createdAt := now }
              (genExtensionCode { ext with hooks := ext.hooks ++ [hk], createdAt := now })),
           true) := by
      unfold addHook
      rw [hfind]
      exact rfl
    rw [haddHook]
    exact ⟨rfl, rfl⟩

/-- A validator oracle whose syntax probe succeeds and whose sandbox always
reports success — validation outcomes are then decided purely by the static
pipeline. -/
def okOracle : ValidatorOracle := ⟨none, fun _ => (true, none)⟩

/-- C2 witness: a validated `writeExtension` of the blocked definition is
rejected without persisting. -/
theorem c2_amended_witness :
    writeExtension c2st0 c2ext1 "2024-01-03T00:00:00Z" (some okOracle)
      = Except.error ("Code validation failed: " ++ joinSep ", "
          (validate none
             (genExtensionCode { c2ext1 with createdAt := "2024-01-03T00:00:00Z" })
             CodeType.extension).errors) :=
  c2_amended.1 c2st0 c2ext1 "2024-01-03T00:00:00Z" okOracle (by decide)

/-! ## C3 (amended part) -/

/-- The quoted variant of the C3 text, which the block rule does match. -/
def c3quoted : String := "require(\x27child_process\x27)"

def c3tool : ToolDef :=
  { name := "fetchProc", label := none, description := "demo",
    properties := [], required := [], code := "const cp = require(\x27child_process\x27)" }

def c3ext : ExtensionDef :=
  { id := "proc-ext", name := "Proc", description := "demo",
    tools := [c3tool], hooks := [], createdAt := "2024-01-01T00:00:00Z" }

/-- C3 amended: the unquoted literal require(child_process) matches no
security rule and is rejected only by the structural export-default error
(see the counterexample); the quoted form require('child_process') is the
one the scanner blocks — its finding is `Child process import` (the
child-process/shell category), it appears in `errors` as
`BLOCKED: Child process import`, the verdict is invalid, and a
`writeExtension` whose validator rejects the generated code returns an error
before any file write or manifest change, leaving the store unchanged. -/
theorem c3_amended :
    (staticSecurityScan c3quoted).blocked = ["Child process import"] ∧
    (validate none c3quoted CodeType.extension).valid = false ∧
    "BLOCKED: Child process import" ∈ (validate none c3quoted CodeType.extension).errors ∧
    (∀ (st : WriterState) (d : ExtensionDef) (now : String) (v : ValidatorOracle),
       (validate v.parseErr (genExtensionCode { d with createdAt := now })
          CodeType.extension).valid = false →
       writeExtension st d now (some v)
         = Except.error ("Code validation failed: " ++ joinSep ", "
             (validate v.parseErr (genExtensionCode { d with createdAt := now })
                CodeType.extension).errors)) :=
  ⟨by decide, by decide, by decide,
   fun st d now v h => writeExtension_invalid_error st d now v h⟩

/-- C3 witness: a validated `writeExtension` of a definition whose tool body
imports child_process is rejected without persisting. -/
theorem c3_amended_witness :
    writeExtension { extensions := [], files := [] } c3ext "2024-01-02T00:00:00Z"
        (some okOracle)
      = Except.error ("Code validation failed: " ++ joinSep ", "
          (validate none
             (genExtensionCode { c3ext with createdAt := "2024-01-02T00:00:00Z" })
             CodeType.extension).errors) :=
  c3_amended.2.2.2 { extensions := [], files := [] } c3ext "2024-01-02T00:00:00Z"
    okOracle (by decide)
